import Mathlib

/-!
# Essence.io front end: network client and state reconciliation

A shallow embedding of `src/js/network/NetworkClient.js` and of the network
handlers of `src/js/game.js`.

Conventions of the embedding.

* A JavaScript object is a Lean structure; a method that mutates `this`
  is a function returning the new object together with what the call did to
  the outside world (wire writes, timers, handler calls).
* A field that may be `undefined` is an `Option`.
* `Date.now()` yields an integral number of milliseconds; every call that
  reads the clock takes that reading as the argument `now : Int`.
* A JavaScript `Map` is an insertion-ordered association list (`JsMap`).
-/

namespace EssenceIo

/-! ## JavaScript truthiness of the optional values that occur -/

/-- Truthiness of a value that is `undefined` or a string: the empty string
and `undefined` are falsy. -/
def truthyStr : Option String → Bool
  | some s => s != ""
  | none => false

/-- Truthiness of a value that is `undefined` or a number: `0` and
`undefined` are falsy. -/
def truthyNum : Option Int → Bool
  | some n => n != 0
  | none => false

/-! ## JavaScript `Map` with string keys -/

/-- A `Map` keyed by strings: its entries in insertion order. -/
abbrev JsMap (V : Type) := List (String × V)

/-- The call `map.get(k)`: the value of the first entry with key `k`. -/
def mapGet {V : Type} (m : JsMap V) (k : String) : Option V :=
  (m.find? (fun kv => kv.1 == k)).map Prod.snd

/-- The call `map.has(k)`. -/
def mapHas {V : Type} (m : JsMap V) (k : String) : Bool :=
  m.any (fun kv => kv.1 == k)

/-- The call `map.set(k, v)`: an existing key keeps its place and takes the
new value, a new key goes to the end. -/
def mapSet {V : Type} (m : JsMap V) (k : String) (v : V) : JsMap V :=
  if mapHas m k then m.map (fun kv => if kv.1 == k then (k, v) else kv)
  else m ++ [(k, v)]

/-- The call `map.delete(k)`. -/
def mapDelete {V : Type} (m : JsMap V) (k : String) : JsMap V :=
  m.filter (fun kv => kv.1 != k)

/-- The keys of a map, in insertion order. -/
def mapKeys {V : Type} (m : JsMap V) : List String :=
  m.map Prod.fst

/-- Mutation, through the reference `map.get(k)` returns, of the object
stored under `k`: the first entry with key `k` is replaced by `f` of it. -/
def mapModify {V : Type} : JsMap V → String → (V → V) → JsMap V
  | [], _, _ => []
  | (k', v) :: rest, k, f =>
      if k' == k then (k', f v) :: rest else (k', v) :: mapModify rest k f

/-! ## NetworkClient -/

/-- An application message handed to `send`: the fields the client itself
reads or writes (`type`, `timestamp`, `serverTime`) and the remaining fields,
which the client only carries along. -/
structure Message where
  type : Option String
  timestamp : Option Int
  serverTime : Option Int
  extra : List (String × String)
deriving DecidableEq, Repr

/-- The envelope built by `send`:
`{type: message.type, data: message, timestamp: Date.now(), priority}`. -/
structure Packet where
  type : Option String
  data : Message
  timestamp : Int
  priority : String
deriving DecidableEq, Repr

/-- The nested payload `message.data` of an inbound message. -/
structure Payload where
  type : Option String
  extra : List (String × String)
deriving DecidableEq, Repr

/-- An inbound message as `processMessage` reads it. -/
structure InMessage where
  type : Option String
  data : Option Payload
  timestamp : Option Int
  extra : List (String × String)
deriving DecidableEq, Repr

/-- The argument a handler is called with: `message.data || message`. -/
inductive HandlerArg where
  | payload (d : Payload)
  | whole (m : InMessage)
deriving DecidableEq, Repr

/-- The frame `handleMessage` receives: `{type: 'batch', messages}` or a
single message. -/
inductive Frame where
  | batch (messages : List InMessage)
  | single (m : InMessage)
deriving DecidableEq, Repr

/-- The `readyState` of a WebSocket. -/
inductive ReadyState where
  | connecting
  | isOpen
  | closing
  | closed
deriving DecidableEq, Repr

/-- The fields of a `NetworkClient`; `H` is the type of handler functions.
`ws = none` is `this.ws === null`. The fields `sendInterval` and
`maxReconnectAttempts` are written by the constructor only and are the
constants below. -/
structure NetworkClient (H : Type) where
  ws : Option ReadyState
  clientId : Option String
  connected : Bool
  lastPingTime : Int
  ping : Int
  messageHandlers : JsMap H
  sendQueue : List Packet
  lastSendTime : Int
  reconnectAttempts : Nat
deriving DecidableEq, Repr

/-- The constant `this.sendInterval = 1000 / 60` (milliseconds). -/
def sendInterval : ℚ := 1000 / 60

/-- The constant `this.maxReconnectAttempts = 5`. -/
def maxReconnectAttempts : Nat := 5

/-- The state the constructor leaves. -/
def NetworkClient.new (H : Type) : NetworkClient H :=
  { ws := none, clientId := none, connected := false, lastPingTime := 0, ping := 0,
    messageHandlers := [], sendQueue := [], lastSendTime := 0, reconnectAttempts := 0 }

/-- The test `this.ws && this.ws.readyState === WebSocket.OPEN`. -/
def wsIsOpen {H : Type} (c : NetworkClient H) : Bool :=
  decide (c.ws = some ReadyState.isOpen)

/-- The method `send(message, priority = 'normal')`; `priority = none` is an
omitted argument. -/
def send {H : Type} (c : NetworkClient H) (now : Int) (message : Message)
    (priority : Option String) : NetworkClient H :=
  if !c.connected then c
  else
    { c with sendQueue := c.sendQueue ++
        [{ type := message.type, data := message, timestamp := now,
           priority := priority.getD "normal" }] }

/-- The interval gate of `processSendQueue`:
`now - this.lastSendTime < this.sendInterval`. Both clock readings are
integers, so the subtraction is exact. -/
def gateClosed {H : Type} (c : NetworkClient H) (now : Int) : Bool :=
  decide (((now - c.lastSendTime : Int) : ℚ) < sendInterval)

/-- The method `processSendQueue()`. The second component is `none` when the
call returns at the interval gate, and otherwise the packets written to the
socket, in order. -/
def processSendQueue {H : Type} (c : NetworkClient H) (now : Int) :
    NetworkClient H × Option (List Packet) :=
  if gateClosed c now then (c, none)
  else
    ({ c with sendQueue := [], lastSendTime := now },
     some (c.sendQueue.filter (fun _ => wsIsOpen c)))

/-- The method `attemptReconnect()`. The second component lists the delays
(in milliseconds) of the reconnect timers the call sets. -/
def attemptReconnect {H : Type} (c : NetworkClient H) : NetworkClient H × List Nat :=
  if c.reconnectAttempts < maxReconnectAttempts then
    ({ c with reconnectAttempts := c.reconnectAttempts + 1 },
     [2 ^ (c.reconnectAttempts + 1) * 1000])
  else (c, [])

/-- The lookup `this.messageHandlers.get(type)`. -/
def getHandler {H : Type} (c : NetworkClient H) (type : Option String) : Option H :=
  match type with
  | some t => mapGet c.messageHandlers t
  | none => none

/-- The type tag `message.type || message.data?.type`. -/
def messageType (message : InMessage) : Option String :=
  if truthyStr message.type then message.type
  else message.data.bind (fun d => d.type)

/-- The reply built in the `ping` branch of `processMessage`:
`{type: 'pong', timestamp: message.timestamp || Date.now(), serverTime: Date.now()}`. -/
def pongReply (message : InMessage) (now : Int) : Message :=
  { type := some "pong",
    timestamp := some (if truthyNum message.timestamp then message.timestamp.getD 0 else now),
    serverTime := some now,
    extra := [] }

/-- The argument `message.data || message` of a handler call. -/
def handlerArg (message : InMessage) : HandlerArg :=
  match message.data with
  | some d => HandlerArg.payload d
  | none => HandlerArg.whole message

/-- The method `processMessage(message)`. The second component lists the
handler calls made, each with its argument. -/
def processMessage {H : Type} (c : NetworkClient H) (now : Int) (message : InMessage) :
    NetworkClient H × List (H × HandlerArg) :=
  if messageType message = some "ping" then
    (send c now (pongReply message now) none, [])
  else
    match getHandler c (messageType message) with
    | some handler => (c, [(handler, handlerArg message)])
    | none => (c, [])

/-- The method `on(messageType, handler)`: `Map.set` on the handler table
(`on` is a reserved word here, hence the name). -/
def onType {H : Type} (c : NetworkClient H) (tag : String) (handler : H) : NetworkClient H :=
  { c with messageHandlers := mapSet c.messageHandlers tag handler }

/-- The method `handlePing(data)`. -/
def handlePing {H : Type} (c : NetworkClient H) (now : Int) (serverTime : Int) :
    NetworkClient H :=
  { c with ping := now - serverTime }

/-- The method `handleMessage(packet)`: every message of a batch, or the
single message, goes through `processMessage`, in order. -/
def handleMessage {H : Type} (c : NetworkClient H) (now : Int) (packet : Frame) :
    NetworkClient H × List (H × HandlerArg) :=
  match packet with
  | Frame.batch messages =>
      messages.foldl
        (fun acc msg => ((processMessage acc.1 now msg).1, acc.2 ++ (processMessage acc.1 now msg).2))
        (c, [])
  | Frame.single m => processMessage c now m

/-! ### The events that drive a client -/

/-- What a step of the client does to the outside world. -/
inductive Effect (H : Type) where
  | wsSend (packet : Packet)
  | reconnectTimer (delay : Nat)
  | call (handler : H) (arg : HandlerArg)
deriving DecidableEq, Repr

/-- The events that reach a client: the socket callbacks set up by `connect`,
the method calls made by the game and the timers. -/
inductive Event (H : Type) where
  | connect
  | onopen
  | onclose
  | onmessage (now : Int) (packet : Frame)
  | send (now : Int) (message : Message) (priority : Option String)
  | flush (now : Int)
  | register (tag : String) (handler : H)
  | pong (now : Int) (serverTime : Int)
  | heartbeat (now : Int)
deriving DecidableEq, Repr

/-- One event, run to completion.
* `connect`: `this.ws = new WebSocket(...)`, a socket that is connecting.
* `onopen`: the socket is open; `connected = true`, `reconnectAttempts = 0`.
* `onclose`: the socket is closed; `connected = false`, then
  `attemptReconnect()`.
* `heartbeat`: the body of the interval timer of `startHeartbeat`. -/
def step {H : Type} (c : NetworkClient H) : Event H → NetworkClient H × List (Effect H)
  | Event.connect => ({ c with ws := some ReadyState.connecting }, [])
  | Event.onopen =>
      ({ c with ws := some ReadyState.isOpen, connected := true, reconnectAttempts := 0 }, [])
  | Event.onclose =>
      let c1 : NetworkClient H := { c with ws := some ReadyState.closed, connected := false }
      ((attemptReconnect c1).1, (attemptReconnect c1).2.map Effect.reconnectTimer)
  | Event.onmessage now packet =>
      ((handleMessage c now packet).1,
       (handleMessage c now packet).2.map (fun ha => Effect.call ha.1 ha.2))
  | Event.send now message priority => (send c now message priority, [])
  | Event.flush now =>
      ((processSendQueue c now).1, ((processSendQueue c now).2.getD []).map Effect.wsSend)
  | Event.register tag handler => (onType c tag handler, [])
  | Event.pong now serverTime => (handlePing c now serverTime, [])
  | Event.heartbeat now =>
      if c.connected && wsIsOpen c then
        (send c now { type := some "ping", timestamp := some now, serverTime := none, extra := [] }
          (some "critical"), [])
      else (c, [])

/-- A run of events from a state: the final state and all effects in order. -/
def run {H : Type} (c : NetworkClient H) : List (Event H) → NetworkClient H × List (Effect H)
  | [] => (c, [])
  | e :: es => ((run (step c e).1 es).1, (step c e).2 ++ (run (step c e).1 es).2)

/-- The clock readings of the `flush` events of a run that pass the interval
gate, in order. -/
def firedFlushes {H : Type} (c : NetworkClient H) : List (Event H) → List Int
  | [] => []
  | e :: es =>
      (match e with
        | Event.flush now => if gateClosed c now then [] else [now]
        | _ => []) ++ firedFlushes (step c e).1 es

/-- The number of reconnect timers among the effects of a run. -/
def reconnectsScheduled {H : Type} (effects : List (Effect H)) : Nat :=
  (effects.filter (fun e => match e with
    | Effect.reconnectTimer _ => true
    | _ => false)).length

/-- The events of a run that are an `onopen`. -/
def isOnopen {H : Type} : Event H → Bool
  | Event.onopen => true
  | _ => false

/-! ## Entities

The classes `Player`, `RemotePlayer`, `Essence` and `NPC` are used by
`game.js` and defined in files outside `src/`. Coordinates, rotations and
counters are numbers that the handlers only copy; they are integers here. -/

/-- A 2D vector. -/
structure Vector2 where
  x : Int
  y : Int
deriving DecidableEq, Repr

/-- The server's description of a player or of a moved entity: `playerData`
of a snapshot and of `playerJoined`, and `entityUpdate.entity`. -/
structure EntityData where
  id : String
  name : String
  position : Vector2
  velocity : Vector2
  rotation : Int
  essenceCount : Int
  health : Int
deriving DecidableEq, Repr

/-- The server's description of a pickup. -/
structure EssenceData where
  id : String
  position : Vector2
  type : String
  rarity : String
  level : Int
deriving DecidableEq, Repr

/-- The server's description of an NPC. -/
structure NpcData where
  id : String
  position : Vector2
deriving DecidableEq, Repr

/-- Modelled from the spec: the class `Player` (the local player) is not under
`src/`. Section 3 of the spec gives an entity an id and a position and a
player a velocity, rotation, name, essence count and health. -/
structure Player where
  id : String
  name : String
  position : Vector2
  velocity : Vector2
  rotation : Int
  essenceCount : Int
  health : Int
deriving DecidableEq, Repr

/-- Modelled from the spec: the class `RemotePlayer` is not under `src/`; it
has the attributes of a player (section 3 of the spec). -/
structure RemotePlayer where
  id : String
  name : String
  position : Vector2
  velocity : Vector2
  rotation : Int
  essenceCount : Int
  health : Int
deriving DecidableEq, Repr

/-- Modelled from the spec: the class `Essence` is not under `src/`; it has
an id, a position and a type, rarity and level (section 3 of the spec), and
the velocity and rotation that the `entityMoved` branch of `game.js` assigns
to any entity. -/
structure Essence where
  id : String
  position : Vector2
  velocity : Vector2
  rotation : Int
  type : String
  rarity : String
  level : Int
deriving DecidableEq, Repr

/-- Modelled from the spec: the class `NPC` is not under `src/`; it has an id
and a position (section 3 of the spec), and the velocity and rotation that
the `entityMoved` branch of `game.js` assigns to any entity. -/
structure NPC where
  id : String
  position : Vector2
  velocity : Vector2
  rotation : Int
deriving DecidableEq, Repr

/-- Modelled from the spec: the constructor `new Player(id, name, x, y)` is
not under `src/`; it stores its arguments, and the attributes it is not given
start at zero. -/
def Player.new (id name : String) (x y : Int) : Player :=
  { id := id, name := name, position := ⟨x, y⟩, velocity := ⟨0, 0⟩, rotation := 0,
    essenceCount := 0, health := 0 }

/-- Modelled from the spec: the constructor `new RemotePlayer(id, name, x, y)`
is not under `src/`; it stores its arguments, and the attributes it is not
given start at zero. -/
def RemotePlayer.new (id name : String) (x y : Int) : RemotePlayer :=
  { id := id, name := name, position := ⟨x, y⟩, velocity := ⟨0, 0⟩, rotation := 0,
    essenceCount := 0, health := 0 }

/-- Modelled from the spec: the method `RemotePlayer.updateFromServer(data)`
is not under `src/`; by section 4.4 of the spec a server update sets the
position, velocity and rotation of the entity. -/
def RemotePlayer.updateFromServer (p : RemotePlayer) (data : EntityData) : RemotePlayer :=
  { p with position := data.position, velocity := data.velocity, rotation := data.rotation }

/-- Modelled from the spec: the constructor
`new Essence(id, x, y, type, rarity, level)` is not under `src/`; it stores
its arguments and starts at rest. -/
def Essence.new (id : String) (x y : Int) (type rarity : String) (level : Int) : Essence :=
  { id := id, position := ⟨x, y⟩, velocity := ⟨0, 0⟩, rotation := 0,
    type := type, rarity := rarity, level := level }

/-- Modelled from the spec: the constructor `new NPC(id, x, y)` is not under
`src/`; it stores its arguments and starts at rest. -/
def NPC.new (id : String) (x y : Int) : NPC :=
  { id := id, position := ⟨x, y⟩, velocity := ⟨0, 0⟩, rotation := 0 }

/-! ## Game: the network handlers of `game.js` -/

/-- The fields of `Game` that the network handlers read or write. -/
structure Game where
  clientId : Option String
  localPlayer : Option Player
  remotePlayers : JsMap RemotePlayer
  essences : JsMap Essence
  npcs : JsMap NPC
deriving DecidableEq, Repr

/-- The state the constructor of `Game` leaves. -/
def Game.new : Game :=
  { clientId := none, localPlayer := none, remotePlayers := [], essences := [], npcs := [] }

/-- The payload of `worldSnapshot`. -/
structure Snapshot where
  clientId : String
  players : List EntityData
  essences : List EssenceData
  npcs : List NpcData
deriving DecidableEq, Repr

/-- One element of `update.updates`: an update of type `entityMoved`, one of
type `essenceCollected`, or one of any other type. -/
inductive EntityUpdate where
  | entityMoved (entity : EntityData)
  | essenceCollected (essenceId playerId : String) (essenceCount : Int)
  | other
deriving DecidableEq, Repr

/-- The payload of `playerJoined`. -/
structure JoinData where
  playerId : String
  playerData : EntityData
deriving DecidableEq, Repr

/-- The object `getEntity` returns, named by where it lives. -/
inductive EntityRef where
  | localPlayer
  | remotePlayer (id : String)
  | essence (id : String)
  | npc (id : String)
deriving DecidableEq, Repr

/-- The method `getEntity(id)`: the local player if its id is `id`, otherwise
`remotePlayers.get(id) || essences.get(id) || npcs.get(id)`; `none` is an
`undefined` result. -/
def getEntity (g : Game) (id : String) : Option EntityRef :=
  if g.localPlayer.map (fun p => p.id) = some id then some EntityRef.localPlayer
  else if (mapGet g.remotePlayers id).isSome then some (EntityRef.remotePlayer id)
  else if (mapGet g.essences id).isSome then some (EntityRef.essence id)
  else if (mapGet g.npcs id).isSome then some (EntityRef.npc id)
  else none

/-- The local player built from `playerData`: `new Player(...)` followed by
the assignments of `essenceCount` and `health`. -/
def makeLocal (playerData : EntityData) : Player :=
  { Player.new playerData.id playerData.name playerData.position.x playerData.position.y with
    essenceCount := playerData.essenceCount, health := playerData.health }

/-- The first loop of the `worldSnapshot` handler: every listed player whose
id is `snapshot.clientId` becomes the local player. -/
def snapshotLocal (clientId : String) (players : List EntityData) (cur : Option Player) :
    Option Player :=
  players.foldl
    (fun acc playerData => if playerData.id = clientId then some (makeLocal playerData) else acc)
    cur

/-- The remote player built from `playerData` under the id `id`:
`new RemotePlayer(...)` followed by `updateFromServer(playerData)`. -/
def makeRemote (id : String) (playerData : EntityData) : RemotePlayer :=
  (RemotePlayer.new id playerData.name playerData.position.x playerData.position.y).updateFromServer
    playerData

/-- The second loop of the `worldSnapshot` handler. -/
def snapshotRemotes (clientId : String) (players : List EntityData) (m : JsMap RemotePlayer) :
    JsMap RemotePlayer :=
  players.foldl
    (fun acc playerData =>
      if playerData.id ≠ clientId then mapSet acc playerData.id (makeRemote playerData.id playerData)
      else acc)
    m

/-- The third loop of the `worldSnapshot` handler. -/
def snapshotEssences (essences : List EssenceData) (m : JsMap Essence) : JsMap Essence :=
  essences.foldl
    (fun acc e => mapSet acc e.id (Essence.new e.id e.position.x e.position.y e.type e.rarity e.level))
    m

/-- The fourth loop of the `worldSnapshot` handler. -/
def snapshotNpcs (npcs : List NpcData) (m : JsMap NPC) : JsMap NPC :=
  npcs.foldl (fun acc n => mapSet acc n.id (NPC.new n.id n.position.x n.position.y)) m

/-- The handler of `worldSnapshot`. -/
def worldSnapshot (g : Game) (snapshot : Snapshot) : Game :=
  { g with
    localPlayer := snapshotLocal snapshot.clientId snapshot.players g.localPlayer
    remotePlayers := snapshotRemotes snapshot.clientId snapshot.players g.remotePlayers
    essences := snapshotEssences snapshot.essences g.essences
    npcs := snapshotNpcs snapshot.npcs g.npcs }

/-- The `entityMoved` branch of the `stateUpdate` handler. A remote player
takes the update through `updateFromServer`; a pickup or NPC has its
position, velocity and rotation assigned. -/
def applyEntityMoved (g : Game) (entity : EntityData) : Game :=
  match getEntity g entity.id with
  | none => g
  | some EntityRef.localPlayer => g
  | some (EntityRef.remotePlayer id) =>
      { g with remotePlayers := mapModify g.remotePlayers id (fun p => p.updateFromServer entity) }
  | some (EntityRef.essence id) =>
      { g with essences := mapModify g.essences id (fun e =>
          { e with position := entity.position, velocity := entity.velocity,
                   rotation := entity.rotation }) }
  | some (EntityRef.npc id) =>
      { g with npcs := mapModify g.npcs id (fun n =>
          { n with position := entity.position, velocity := entity.velocity,
                   rotation := entity.rotation }) }

/-- The `essenceCollected` branch of the `stateUpdate` handler. -/
def applyEssenceCollected (g : Game) (essenceId playerId : String) (essenceCount : Int) : Game :=
  let g1 : Game := { g with essences := mapDelete g.essences essenceId }
  match mapGet g1.remotePlayers playerId with
  | some _ =>
      { g1 with remotePlayers :=
          mapModify g1.remotePlayers playerId (fun p => { p with essenceCount := essenceCount }) }
  | none =>
      match g1.localPlayer with
      | some p => { g1 with localPlayer := some { p with essenceCount := essenceCount } }
      | none => g1

/-- The body of the loop of the `stateUpdate` handler. -/
def applyUpdate (g : Game) : EntityUpdate → Game
  | EntityUpdate.entityMoved entity => applyEntityMoved g entity
  | EntityUpdate.essenceCollected essenceId playerId essenceCount =>
      applyEssenceCollected g essenceId playerId essenceCount
  | EntityUpdate.other => g

/-- The handler of `stateUpdate`. -/
def stateUpdate (g : Game) (updates : List EntityUpdate) : Game :=
  updates.foldl applyUpdate g

/-- The handler of `playerJoined`. -/
def playerJoined (g : Game) (data : JoinData) : Game :=
  { g with remotePlayers :=
      mapSet g.remotePlayers data.playerId (makeRemote data.playerId data.playerData) }

/-- The handler of `playerLeft`. -/
def playerLeft (g : Game) (playerId : String) : Game :=
  { g with remotePlayers := mapDelete g.remotePlayers playerId }

/-- The handler of `init`. -/
def init (g : Game) (clientId : String) : Game :=
  { g with clientId := some clientId }

/-- The handler invocations that reach the game. -/
inductive GameEvent where
  | worldSnapshot (snapshot : Snapshot)
  | stateUpdate (updates : List EntityUpdate)
  | playerJoined (data : JoinData)
  | playerLeft (playerId : String)
deriving DecidableEq, Repr

/-- One handler invocation. -/
def gameStep (g : Game) : GameEvent → Game
  | GameEvent.worldSnapshot snapshot => worldSnapshot g snapshot
  | GameEvent.stateUpdate updates => stateUpdate g updates
  | GameEvent.playerJoined data => playerJoined g data
  | GameEvent.playerLeft playerId => playerLeft g playerId

/-- A sequence of handler invocations. -/
def gameRun (g : Game) (events : List GameEvent) : Game :=
  events.foldl gameStep g

/-- The last member of a list that satisfies `p`, if there is one. -/
def lastWhere {α : Type} (p : α → Prop) [DecidablePred p] (l : List α) : Option α :=
  (l.filter (fun a => decide (p a))).getLast?

/-- The invariant of section 3 of the spec: the id of the local player, once
there is one, is not a key of the remote-player map. -/
def localNotRemote (g : Game) : Prop :=
  ∀ p, g.localPlayer = some p → mapHas g.remotePlayers p.id = false

/-- The property carried through a session of the client `X`: `X` is not a
key of the remote-player map, and the local player, if there is one, has id
`X`. -/
def clientApart (X : String) (g : Game) : Prop :=
  mapHas g.remotePlayers X = false ∧ ∀ p, g.localPlayer = some p → p.id = X

/-! ## Concrete inputs -/

/-- An `input` message of the game. -/
def exInput : Message :=
  { type := some "input", timestamp := none, serverTime := none, extra := [("keys", "w")] }

/-- A client that has connected: `connect()` followed by the socket's `open`. -/
def exConnected : NetworkClient Unit :=
  (run (NetworkClient.new Unit) [Event.connect, Event.onopen]).1

/-- A connected client with a handler registered for `ping`. -/
def exWithPingHandler : NetworkClient Unit :=
  (run (NetworkClient.new Unit) [Event.connect, Event.onopen, Event.register "ping" ()]).1

/-- A client that queued one message while connected and then lost its
socket. -/
def exQueuedThenClosed : NetworkClient Unit :=
  (run (NetworkClient.new Unit)
    [Event.connect, Event.onopen, Event.send 1000 exInput none, Event.onclose]).1

/-- A connected client with two queued messages. -/
def exTwoQueued : NetworkClient Unit :=
  (run (NetworkClient.new Unit)
    [Event.connect, Event.onopen, Event.send 1000 exInput none,
     Event.send 1001 exInput (some "critical")]).1

/-- A server probe with the given timestamp. -/
def exPing (t : Int) : InMessage :=
  { type := some "ping", data := none, timestamp := some t, extra := [] }

/-- The listing of a player at the origin. -/
def exPlayerData (id : String) : EntityData :=
  { id := id, name := id, position := ⟨0, 0⟩, velocity := ⟨0, 0⟩, rotation := 0,
    essenceCount := 0, health := 100 }

/-- The listing of a pickup at the origin. -/
def exEssenceData (id : String) : EssenceData :=
  { id := id, position := ⟨0, 0⟩, type := "fire", rarity := "common", level := 1 }

/-- The snapshot of the scenario of section 8 of the spec: the client is `A`,
the players are `A` and `B`, and there is one pickup `e1`. -/
def exSnapshot : Snapshot :=
  { clientId := "A", players := [exPlayerData "A", exPlayerData "B"],
    essences := [exEssenceData "e1"], npcs := [] }

/-- The game after the snapshot of the scenario. -/
def exGame : Game :=
  worldSnapshot Game.new exSnapshot

/-- A later snapshot for the same client that lists the client alone. -/
def exSnapshotAlone : Snapshot :=
  { clientId := "A", players := [exPlayerData "A"], essences := [], npcs := [] }

/-- A server update that moves the entity `id` to `(7, 9)`. -/
def exMove (id : String) : EntityData :=
  { id := id, name := id, position := ⟨7, 9⟩, velocity := ⟨1, 1⟩, rotation := 3,
    essenceCount := 0, health := 100 }

/-- A snapshot that lists the players `A` and `B` and declares the client to
be `B`. -/
def exSnapshotAsB : Snapshot :=
  { clientId := "B", players := [exPlayerData "A", exPlayerData "B"], essences := [], npcs := [] }

/-- A `playerJoined` payload for the player `id`. -/
def exJoin (id : String) : JoinData :=
  { playerId := id, playerData := exPlayerData id }

/-- A session in which the server never announces the client `A` to itself:
the snapshot, a join of `C`, a batch of updates and the departure of `B`. -/
def exSession : List GameEvent :=
  [GameEvent.worldSnapshot exSnapshot,
   GameEvent.playerJoined (exJoin "C"),
   GameEvent.stateUpdate
     [EntityUpdate.entityMoved (exMove "C"), EntityUpdate.essenceCollected "e1" "A" 1],
   GameEvent.playerLeft "B"]

/-! ## Properties of the network client -/

section Client

variable {H : Type}

/-- The gate in integer arithmetic: it is closed exactly when fewer than 17
whole milliseconds have passed. -/
theorem gateClosed_iff (c : NetworkClient H) (now : Int) :
    gateClosed c now = true ↔ (now - c.lastSendTime) * 60 < 1000 := by
  unfold gateClosed sendInterval
  rw [decide_eq_true_iff, lt_div_iff₀ (by norm_num : (0 : ℚ) < 60)]
  exact_mod_cast Iff.rfl

theorem gateClosed_eq_false_iff (c : NetworkClient H) (now : Int) :
    gateClosed c now = false ↔ 1000 ≤ (now - c.lastSendTime) * 60 := by
  rw [← Bool.not_eq_true, gateClosed_iff]
  omega

/-! ### Fields a method leaves alone -/

theorem send_lastSendTime (c : NetworkClient H) (now : Int) (m : Message) (p : Option String) :
    (send c now m p).lastSendTime = c.lastSendTime := by
  unfold send; split <;> rfl

theorem send_reconnectAttempts (c : NetworkClient H) (now : Int) (m : Message)
    (p : Option String) : (send c now m p).reconnectAttempts = c.reconnectAttempts := by
  unfold send; split <;> rfl

theorem processMessage_lastSendTime (c : NetworkClient H) (now : Int) (m : InMessage) :
    (processMessage c now m).1.lastSendTime = c.lastSendTime := by
  unfold processMessage
  split
  · exact send_lastSendTime _ _ _ _
  · split <;> rfl

theorem processMessage_reconnectAttempts (c : NetworkClient H) (now : Int) (m : InMessage) :
    (processMessage c now m).1.reconnectAttempts = c.reconnectAttempts := by
  unfold processMessage
  split
  · exact send_reconnectAttempts _ _ _ _
  · split <;> rfl

/-- A quantity that `processMessage` leaves alone is left alone by
`handleMessage`. -/
theorem handleMessage_preserves {α : Type} (f : NetworkClient H → α)
    (hf : ∀ (c : NetworkClient H) (now : Int) (m : InMessage), f (processMessage c now m).1 = f c)
    (c : NetworkClient H) (now : Int) (packet : Frame) :
    f (handleMessage c now packet).1 = f c := by
  cases packet with
  | single m => exact hf c now m
  | batch messages =>
    unfold handleMessage
    have key : ∀ (ms : List InMessage) (acc : NetworkClient H × List (H × HandlerArg)),
        f (ms.foldl (fun acc msg =>
          ((processMessage acc.1 now msg).1, acc.2 ++ (processMessage acc.1 now msg).2)) acc).1
          = f acc.1 := by
      intro ms
      induction ms with
      | nil => intro acc; rfl
      | cons m ms ih => intro acc; rw [List.foldl_cons, ih]; exact hf _ _ _
    exact key messages (c, [])

/-- Only a flush that passes the gate changes `lastSendTime`. -/
theorem step_lastSendTime (c : NetworkClient H) (e : Event H) :
    (step c e).1.lastSendTime =
      match e with
      | Event.flush now => if gateClosed c now then c.lastSendTime else now
      | _ => c.lastSendTime := by
  cases e with
  | connect => rfl
  | onopen => rfl
  | onclose => simp only [step]; unfold attemptReconnect; split <;> rfl
  | onmessage now packet =>
    exact handleMessage_preserves (fun c => c.lastSendTime) processMessage_lastSendTime c now packet
  | send now m p => exact send_lastSendTime c now m p
  | flush now => simp only [step]; unfold processSendQueue; split <;> rfl
  | register tag h => rfl
  | pong now t => rfl
  | heartbeat now => simp only [step]; split; exact send_lastSendTime _ _ _ _; rfl

theorem reconnectsScheduled_append (xs ys : List (Effect H)) :
    reconnectsScheduled (xs ++ ys) = reconnectsScheduled xs + reconnectsScheduled ys := by
  simp [reconnectsScheduled]

theorem reconnectsScheduled_map_call (l : List (H × HandlerArg)) :
    reconnectsScheduled (l.map (fun ha => Effect.call ha.1 ha.2)) = 0 := by
  induction l with
  | nil => rfl
  | cons a l ih => simpa [reconnectsScheduled] using ih

theorem reconnectsScheduled_map_wsSend (l : List Packet) :
    reconnectsScheduled (l.map (Effect.wsSend : Packet → Effect H)) = 0 := by
  induction l with
  | nil => rfl
  | cons a l ih => simp [reconnectsScheduled]

/-- An event other than `onopen` raises the attempt counter by the number of
reconnect timers it sets. -/
theorem step_reconnects (c : NetworkClient H) (e : Event H) (he : isOnopen e = false) :
    reconnectsScheduled (step c e).2 + c.reconnectAttempts = (step c e).1.reconnectAttempts := by
  cases e with
  | connect => simp [step, reconnectsScheduled]
  | onopen => simp [isOnopen] at he
  | onclose =>
    simp only [step]; unfold attemptReconnect
    split
    · simp [reconnectsScheduled]; omega
    · simp [reconnectsScheduled]
  | onmessage now packet =>
    simp only [step, reconnectsScheduled_map_call, Nat.zero_add]
    exact (handleMessage_preserves (fun c => c.reconnectAttempts)
      processMessage_reconnectAttempts c now packet).symm
  | send now m p => simp [step, reconnectsScheduled, send_reconnectAttempts]
  | flush now =>
    simp only [step, reconnectsScheduled_map_wsSend, Nat.zero_add]
    unfold processSendQueue; split <;> rfl
  | register tag h => simp [step, reconnectsScheduled, onType]
  | pong now t => simp [step, reconnectsScheduled, handlePing]
  | heartbeat now =>
    simp only [step]
    split <;> simp [reconnectsScheduled, send_reconnectAttempts]

/-- No event takes the attempt counter above the maximum. -/
theorem step_reconnectAttempts_le (c : NetworkClient H) (e : Event H)
    (h : c.reconnectAttempts ≤ maxReconnectAttempts) :
    (step c e).1.reconnectAttempts ≤ maxReconnectAttempts := by
  by_cases he : isOnopen e = true
  · cases e <;> simp [isOnopen] at he
    simp [step]
  · have h1 := step_reconnects c e (by simpa using he)
    cases e with
    | onclose =>
      simp only [step]; unfold attemptReconnect
      split
      · rename_i hlt
        dsimp only at hlt ⊢
        omega
      · simpa using h
    | onopen => simp [isOnopen] at he
    | connect => simpa [step] using h
    | onmessage now packet =>
      rw [show (step c (Event.onmessage now packet)).1 = (handleMessage c now packet).1 from rfl,
        handleMessage_preserves (fun c => c.reconnectAttempts)
          processMessage_reconnectAttempts c now packet]
      exact h
    | send now m p => simpa [step, send_reconnectAttempts] using h
    | flush now => simp only [step]; unfold processSendQueue; split <;> exact h
    | register tag hd => simpa [step, onType] using h
    | pong now t => simpa [step, handlePing] using h
    | heartbeat now =>
      simp only [step]
      split
      · rw [send_reconnectAttempts]; exact h
      · exact h

theorem run_reconnectAttempts_le (es : List (Event H)) (c : NetworkClient H)
    (h : c.reconnectAttempts ≤ maxReconnectAttempts) :
    (run c es).1.reconnectAttempts ≤ maxReconnectAttempts := by
  induction es generalizing c with
  | nil => exact h
  | cons e es ih => exact ih _ (step_reconnectAttempts_le c e h)

theorem run_reconnects (es : List (Event H)) (c : NetworkClient H)
    (hes : ∀ e ∈ es, isOnopen e = false) :
    reconnectsScheduled (run c es).2 + c.reconnectAttempts = (run c es).1.reconnectAttempts := by
  induction es generalizing c with
  | nil => simp [run, reconnectsScheduled]
  | cons e es ih =>
    have h1 := step_reconnects c e (hes e (List.mem_cons_self _ _))
    have h2 := ih (step c e).1 (fun e' he' => hes e' (List.mem_cons_of_mem _ he'))
    simp only [run, reconnectsScheduled_append]
    omega

/-! ### Claims about the outbound queue -/

/-- C8: `send` while the connected flag is false returns the client unchanged,
so no later run of events can tell that the call was made (the message is
dropped); `send` while connected appends exactly the envelope
`{type: message.type, data: message, timestamp: now, priority}` at the end of
the queue and changes nothing else, the priority being `'normal'` when the
argument is omitted. -/
theorem send_contract (c : NetworkClient H) (now : Int) (message : Message) :
    (c.connected = false →
      ∀ priority : Option String,
        send c now message priority = c ∧
        ∀ es : List (Event H), run (send c now message priority) es = run c es) ∧
    (c.connected = true →
      (∀ p : String, send c now message (some p) =
        { c with sendQueue := c.sendQueue ++
            [{ type := message.type, data := message, timestamp := now, priority := p }] }) ∧
      send c now message none =
        { c with sendQueue := c.sendQueue ++
            [{ type := message.type, data := message, timestamp := now,
               priority := "normal" }] }) := by
  refine ⟨fun h priority => ?_, fun h => ⟨fun p => ?_, ?_⟩⟩
  · have hs : send c now message priority = c := by simp [send, h]
    exact ⟨hs, fun es => by rw [hs]⟩
  · simp [send, h]
  · simp [send, h]

/-- C8, at concrete inputs: a message sent before the socket opens is not in
the queue; one sent after is the last (here the only) envelope. -/
theorem send_contract_witness :
    send (NetworkClient.new Unit) 1000 exInput (some "critical") = NetworkClient.new Unit ∧
    (send exConnected 1000 exInput none).sendQueue =
      [{ type := some "input", data := exInput, timestamp := 1000, priority := "normal" }] :=
  ⟨((send_contract (NetworkClient.new Unit) 1000 exInput).1 rfl (some "critical")).1,
   by rw [((send_contract exConnected 1000 exInput).2 rfl).2]; rfl⟩

/-- C5 as amended: when a send interval has elapsed since `lastSendTime` and
the socket is open, `processSendQueue` writes exactly the queued envelopes to
the wire, once each and in enqueue order, and afterwards the queue is empty
and `lastSendTime` is the clock; nothing else changes. -/
theorem flush_writes_queue (c : NetworkClient H) (now : Int)
    (hgate : sendInterval ≤ ((now - c.lastSendTime : Int) : ℚ))
    (hopen : c.ws = some ReadyState.isOpen) :
    processSendQueue c now =
      ({ c with sendQueue := [], lastSendTime := now }, some c.sendQueue) ∧
    (step c (Event.flush now)).2 = c.sendQueue.map Effect.wsSend := by
  have hg : gateClosed c now = false := by
    unfold gateClosed
    exact decide_eq_false (not_lt.mpr hgate)
  have ho : wsIsOpen c = true := by simp [wsIsOpen, hopen]
  constructor
  · simp [processSendQueue, hg, ho]
  · simp [step, processSendQueue, hg, ho]

/-- C5 as amended, at a concrete input: two queued envelopes are written in
the order they were queued, and the queue is empty afterwards. -/
theorem flush_writes_queue_witness :
    processSendQueue exTwoQueued 2000 =
      ({ exTwoQueued with sendQueue := [], lastSendTime := 2000 },
       some [{ type := some "input", data := exInput, timestamp := 1000, priority := "normal" },
             { type := some "input", data := exInput, timestamp := 1001,
               priority := "critical" }]) :=
  (flush_writes_queue exTwoQueued 2000
    (by
      rw [show exTwoQueued.lastSendTime = 0 from rfl]
      unfold sendInterval
      norm_num)
    rfl).1

/-- C5 fails as stated: a client that queued an envelope while connected and
then lost its socket passes the gate at clock 2000, writes nothing, and its
queue is empty afterwards: the envelope left the queue unwritten. -/
theorem flush_discards_when_socket_closed :
    sendInterval ≤ ((2000 - exQueuedThenClosed.lastSendTime : Int) : ℚ) ∧
    exQueuedThenClosed.ws = some ReadyState.closed ∧
    exQueuedThenClosed.sendQueue =
      [{ type := some "input", data := exInput, timestamp := 1000, priority := "normal" }] ∧
    (processSendQueue exQueuedThenClosed 2000).2 = some [] ∧
    (processSendQueue exQueuedThenClosed 2000).1.sendQueue = [] := by
  have hg : gateClosed exQueuedThenClosed 2000 = false :=
    (gateClosed_eq_false_iff _ _).2 (by decide)
  refine ⟨?_, rfl, rfl, ?_, ?_⟩
  · rw [show exQueuedThenClosed.lastSendTime = 0 from rfl]
    unfold sendInterval
    norm_num
  · simp only [processSendQueue, hg]
    rfl
  · simp only [processSendQueue, hg]
    rfl

/-- C9 as amended: with an empty queue `processSendQueue` writes nothing and
changes no field but `lastSendTime`, which keeps its value when the gate is
closed and becomes the clock when it is not; any number of consecutive empty
flushes writes nothing and leaves every field but `lastSendTime` as it was. -/
theorem empty_flush (c : NetworkClient H) (hq : c.sendQueue = []) :
    (∀ now : Int,
      (processSendQueue c now).2.getD [] = [] ∧
      (processSendQueue c now).1 =
        { c with lastSendTime := if gateClosed c now then c.lastSendTime else now }) ∧
    ∀ clocks : List Int,
      (run c (clocks.map Event.flush)).2 = [] ∧
      (run c (clocks.map Event.flush)).1 =
        { c with lastSendTime := (run c (clocks.map Event.flush)).1.lastSendTime } := by
  have one : ∀ (c : NetworkClient H), c.sendQueue = [] → ∀ now : Int,
      (processSendQueue c now).2.getD [] = [] ∧
      (processSendQueue c now).1 =
        { c with lastSendTime := if gateClosed c now then c.lastSendTime else now } := by
    intro c hq now
    unfold processSendQueue
    cases hg : gateClosed c now
    · simp [hq]
    · simp
  refine ⟨one c hq, fun clocks => ?_⟩
  induction clocks generalizing c with
  | nil => exact ⟨rfl, rfl⟩
  | cons t ts ih =>
    have h1 := one c hq t
    have hq1 : (step c (Event.flush t)).1.sendQueue = [] := by
      show (processSendQueue c t).1.sendQueue = []
      rw [h1.2]; exact hq
    have h2 := ih (step c (Event.flush t)).1 hq1
    have hs : (step c (Event.flush t)).1 =
        { c with lastSendTime := if gateClosed c t then c.lastSendTime else t } := h1.2
    refine ⟨?_, ?_⟩
    · simp only [List.map_cons, run, h2.1, List.append_nil]
      show ((processSendQueue c t).2.getD []).map Effect.wsSend = []
      rw [h1.1]; rfl
    · simp only [List.map_cons, run]
      rw [h2.2, hs]

/-- C9 as amended, at a concrete input: three empty flushes of a fresh
client write nothing and leave the queue empty. -/
theorem empty_flush_witness :
    (run (NetworkClient.new Unit) ([1000, 1005, 2000].map Event.flush)).2 = [] ∧
    (run (NetworkClient.new Unit) ([1000, 1005, 2000].map Event.flush)).1.sendQueue = [] := by
  have h := (empty_flush (NetworkClient.new Unit) rfl).2 [1000, 1005, 2000]
  refine ⟨h.1, ?_⟩
  rw [h.2]
  rfl

/-- C9 fails as stated: an empty flush of a fresh client at clock 1000
changes the last-flush timestamp from 0 to 1000, and a second empty flush at
clock 2000 leaves a state different from the one the first left. -/
theorem empty_flush_moves_lastSendTime :
    (NetworkClient.new Unit).sendQueue = [] ∧
    (NetworkClient.new Unit).lastSendTime = 0 ∧
    (processSendQueue (NetworkClient.new Unit) 1000).1.lastSendTime = 1000 ∧
    (processSendQueue (NetworkClient.new Unit) 1000).1 ≠ NetworkClient.new Unit ∧
    (processSendQueue (processSendQueue (NetworkClient.new Unit) 1000).1 2000).1 ≠
      (processSendQueue (NetworkClient.new Unit) 1000).1 := by
  have hg1 : gateClosed (NetworkClient.new Unit) 1000 = false :=
    (gateClosed_eq_false_iff _ _).2 (by decide)
  have h1 : (processSendQueue (NetworkClient.new Unit) 1000).1 =
      { NetworkClient.new Unit with sendQueue := [], lastSendTime := 1000 } := by
    simp only [processSendQueue, hg1]
    rfl
  have hg2 : gateClosed ({ NetworkClient.new Unit with sendQueue := [], lastSendTime := 1000 } :
      NetworkClient Unit) 2000 = false :=
    (gateClosed_eq_false_iff _ _).2 (by decide)
  refine ⟨rfl, rfl, ?_, ?_, ?_⟩
  · rw [h1]
  · rw [h1]; decide
  · rw [h1]
    simp only [processSendQueue, hg2]
    decide

/-! ### The rate limit -/

theorem sendInterval_pos : (0 : ℚ) < sendInterval := by
  unfold sendInterval; norm_num

/-- Every flush of a run that passes the gate comes at least one send
interval after the `lastSendTime` the run starts with. -/
theorem firedFlushes_ge (es : List (Event H)) (c : NetworkClient H) :
    ∀ t ∈ firedFlushes c es, (c.lastSendTime : ℚ) + sendInterval ≤ (t : ℚ) := by
  induction es generalizing c with
  | nil => intro t ht; simp [firedFlushes] at ht
  | cons e es ih =>
    intro t ht
    have hl := step_lastSendTime c e
    simp only [firedFlushes, List.mem_append] at ht
    cases e with
    | flush now =>
      simp only at hl ht
      cases hg : gateClosed c now with
      | true =>
        simp only [hg, if_true, List.not_mem_nil, false_or] at hl ht
        have := ih _ t ht
        rwa [hl] at this
      | false =>
        simp only [hg, Bool.false_eq_true, if_false, List.mem_singleton] at hl ht
        have hnow : (c.lastSendTime : ℚ) + sendInterval ≤ (now : ℚ) := by
          have h1 : ¬ (((now - c.lastSendTime : Int) : ℚ) < sendInterval) := by
            simpa [gateClosed] using hg
          push_cast at h1
          linarith
        rcases ht with ht | ht
        · rw [ht]; exact hnow
        · have := ih _ t ht
          rw [hl] at this
          have := sendInterval_pos
          linarith
    | connect => simp only [List.not_mem_nil, false_or] at hl ht; have := ih _ t ht; rwa [hl] at this
    | onopen => simp only [List.not_mem_nil, false_or] at hl ht; have := ih _ t ht; rwa [hl] at this
    | onclose => simp only [List.not_mem_nil, false_or] at hl ht; have := ih _ t ht; rwa [hl] at this
    | onmessage n pk =>
      simp only [List.not_mem_nil, false_or] at hl ht; have := ih _ t ht; rwa [hl] at this
    | send n m pr =>
      simp only [List.not_mem_nil, false_or] at hl ht; have := ih _ t ht; rwa [hl] at this
    | register tag h =>
      simp only [List.not_mem_nil, false_or] at hl ht; have := ih _ t ht; rwa [hl] at this
    | pong n st =>
      simp only [List.not_mem_nil, false_or] at hl ht; have := ih _ t ht; rwa [hl] at this
    | heartbeat n =>
      simp only [List.not_mem_nil, false_or] at hl ht; have := ih _ t ht; rwa [hl] at this

/-- Any two flushes of a run that pass the gate are a send interval apart. -/
theorem firedFlushes_pairwise (es : List (Event H)) (c : NetworkClient H) :
    (firedFlushes c es).Pairwise (fun (s t : Int) => (s : ℚ) + sendInterval ≤ (t : ℚ)) := by
  induction es generalizing c with
  | nil => simp [firedFlushes]
  | cons e es ih =>
    simp only [firedFlushes]
    rw [List.pairwise_append]
    refine ⟨?_, ih _, ?_⟩
    · cases e <;> try exact List.Pairwise.nil
      dsimp only
      split
      · exact List.Pairwise.nil
      · exact List.pairwise_singleton _ _
    · intro a ha b hb
      cases e with
      | flush now =>
        simp only at ha
        cases hg : gateClosed c now with
        | true => simp [hg] at ha
        | false =>
          simp only [hg, Bool.false_eq_true, if_false, List.mem_singleton] at ha
          have hl := step_lastSendTime c (Event.flush now)
          simp only [hg, Bool.false_eq_true, if_false] at hl
          have := firedFlushes_ge es _ b hb
          rw [hl] at this
          rw [ha]; exact this
      | connect => simp at ha
      | onopen => simp at ha
      | onclose => simp at ha
      | onmessage n pk => simp at ha
      | send n m pr => simp at ha
      | register tag h => simp at ha
      | pong n st => simp at ha
      | heartbeat n => simp at ha

/-- A list of instants that are pairwise `d` apart and lie in `[lo, hi]` has
at most `(hi - lo) / d + 1` members. -/
theorem spaced_length (d : ℚ) (l : List Int)
    (hp : l.Pairwise (fun (s t : Int) => (s : ℚ) + d ≤ (t : ℚ))) :
    ∀ lo hi : ℚ, (∀ t ∈ l, lo ≤ (t : ℚ) ∧ (t : ℚ) ≤ hi) → l ≠ [] →
      ((l.length : ℚ) - 1) * d ≤ hi - lo := by
  induction l with
  | nil => intro lo hi _ h; exact absurd rfl h
  | cons x l ih =>
    intro lo hi hb _
    rw [List.pairwise_cons] at hp
    have hx := hb x (List.mem_cons_self _ _)
    by_cases hl : l = []
    · subst hl
      simp only [List.length_singleton, Nat.cast_one, sub_self, zero_mul]
      linarith
    · have := ih hp.2 ((x : ℚ) + d) hi
        (fun t ht => ⟨hp.1 t ht, (hb t (List.mem_cons_of_mem _ ht)).2⟩) hl
      simp only [List.length_cons, Nat.cast_add, Nat.cast_one]
      linarith

/-- C4: in every run of events (whatever else happens between the flushes,
and for every sequence of clock readings, the non-decreasing ones included),
any two calls of `processSendQueue` that pass the interval gate are at least
`sendInterval = 1000/60` ms apart, and so the calls that pass the gate within
any window of `elapsed` milliseconds number at most
`floor(elapsed / sendInterval) + 1`. -/
theorem rate_limit (c : NetworkClient H) (es : List (Event H)) :
    (firedFlushes c es).Pairwise (fun (s t : Int) => (s : ℚ) + sendInterval ≤ (t : ℚ)) ∧
    ∀ (a : Int) (elapsed : ℕ),
      ((firedFlushes c es).filter (fun t => decide (a ≤ t ∧ t ≤ a + elapsed))).length
        ≤ ⌊(elapsed : ℚ) / sendInterval⌋₊ + 1 := by
  refine ⟨firedFlushes_pairwise es c, fun a elapsed => ?_⟩
  set l := (firedFlushes c es).filter (fun t => decide (a ≤ t ∧ t ≤ a + elapsed)) with hl
  have hp : l.Pairwise (fun (s t : Int) => (s : ℚ) + sendInterval ≤ (t : ℚ)) :=
    (firedFlushes_pairwise es c).filter _
  by_cases he : l = []
  · rw [he]; simp
  · have hb : ∀ t ∈ l, (a : ℚ) ≤ (t : ℚ) ∧ (t : ℚ) ≤ (a : ℚ) + elapsed := by
      intro t ht
      rw [hl, List.mem_filter] at ht
      have h2 := of_decide_eq_true ht.2
      exact ⟨by exact_mod_cast h2.1, by exact_mod_cast h2.2⟩
    have h := spaced_length sendInterval l hp a ((a : ℚ) + elapsed) hb he
    have h1 : ((l.length - 1 : ℕ) : ℚ) ≤ (elapsed : ℚ) / sendInterval := by
      rw [le_div_iff₀ sendInterval_pos]
      have hpos : 1 ≤ l.length := List.length_pos.mpr he
      rw [Nat.cast_sub hpos]
      push_cast
      linarith
    have h2 := Nat.le_floor h1
    omega

/-- A run of three flushes of a fresh client: the one 10 ms after the first
is held at the gate, the one 17 ms after the first passes. -/
theorem firedFlushes_example :
    firedFlushes (NetworkClient.new Unit)
      [Event.flush 1000, Event.flush 1010, Event.flush 1017] = [1000, 1017] := by
  have g1 : gateClosed (NetworkClient.new Unit) 1000 = false :=
    (gateClosed_eq_false_iff _ _).2 (by decide)
  have s1 : (step (NetworkClient.new Unit) (Event.flush 1000)).1 =
      { NetworkClient.new Unit with lastSendTime := 1000 } := by
    simp only [step, processSendQueue, g1]; rfl
  have g2 : gateClosed ({ NetworkClient.new Unit with lastSendTime := 1000 } :
      NetworkClient Unit) 1010 = true := (gateClosed_iff _ _).2 (by decide)
  have s2 : (step ({ NetworkClient.new Unit with lastSendTime := 1000 } : NetworkClient Unit)
      (Event.flush 1010)).1 = { NetworkClient.new Unit with lastSendTime := 1000 } := by
    simp only [step, processSendQueue, g2]; rfl
  have g3 : gateClosed ({ NetworkClient.new Unit with lastSendTime := 1000 } :
      NetworkClient Unit) 1017 = false := (gateClosed_eq_false_iff _ _).2 (by decide)
  simp only [firedFlushes, g1, s1, g2, s2, g3]
  rfl

/-! ### Claims about dispatch and reconnection -/

/-- C6 as amended: for every connected client, whatever its handler table,
and every inbound message whose type tag is `ping` and whose timestamp `t` is
not zero, `processMessage` appends exactly one envelope to the send queue: of
type `pong`, normal priority, with payload timestamp `t` and `serverTime` the
clock at receipt; it calls no handler and changes nothing else. -/
theorem ping_reply (c : NetworkClient H) (now t : Int) (message : InMessage)
    (hconn : c.connected = true) (htype : messageType message = some "ping")
    (hts : message.timestamp = some t) (ht : t ≠ 0) :
    processMessage c now message =
      ({ c with sendQueue := c.sendQueue ++
          [{ type := some "pong",
             data := { type := some "pong", timestamp := some t, serverTime := some now,
                       extra := [] },
             timestamp := now,
             priority := "normal" }] }, []) := by
  simp [processMessage, htype, send, hconn, pongReply, hts, truthyNum, ht]

/-- C6 as amended, at the probe timestamp 1000 and a client that has a
handler registered for `ping`: the reply echoes 1000 and the handler is not
called. -/
theorem ping_reply_witness :
    getHandler exWithPingHandler (some "ping") = some () ∧
    processMessage exWithPingHandler 5000 (exPing 1000) =
      ({ exWithPingHandler with sendQueue :=
          [{ type := some "pong",
             data := { type := some "pong", timestamp := some 1000, serverTime := some 5000,
                       extra := [] },
             timestamp := 5000,
             priority := "normal" }] }, []) :=
  ⟨by decide, ping_reply exWithPingHandler 5000 1000 (exPing 1000) rfl (by decide) rfl (by decide)⟩

/-- C6 fails as stated: a probe with timestamp 0 received at clock 5000 is
answered with payload timestamp 5000, the local clock, and not with 0. -/
theorem ping_reply_zero_timestamp :
    exConnected.connected = true ∧
    messageType (exPing 0) = some "ping" ∧
    (exPing 0).timestamp = some 0 ∧
    (processMessage exConnected 5000 (exPing 0)).1.sendQueue =
      [{ type := some "pong",
         data := { type := some "pong", timestamp := some 5000, serverTime := some 5000,
                   extra := [] },
         timestamp := 5000,
         priority := "normal" }] := by
  refine ⟨rfl, by decide, rfl, by decide⟩

/-- C7: `attemptReconnect` with the counter at `c < 5` sets it to `c + 1` and
sets exactly one reconnect timer, of `2 ^ (c + 1) * 1000` ms; with the counter
at 5 it sets no timer and changes nothing. Hence in every state reachable
from the constructor's the counter is at most 5, and a stretch of events
without an `onopen` sets at most 5 reconnect timers. -/
theorem reconnect_backoff (H : Type) :
    (∀ c : NetworkClient H, c.reconnectAttempts < 5 →
      attemptReconnect c =
        ({ c with reconnectAttempts := c.reconnectAttempts + 1 },
         [2 ^ (c.reconnectAttempts + 1) * 1000])) ∧
    (∀ c : NetworkClient H, c.reconnectAttempts = 5 → attemptReconnect c = (c, [])) ∧
    (∀ es : List (Event H), (run (NetworkClient.new H) es).1.reconnectAttempts ≤ 5) ∧
    (∀ es0 es : List (Event H), (∀ e ∈ es, isOnopen e = false) →
      reconnectsScheduled (run (run (NetworkClient.new H) es0).1 es).2 ≤ 5) := by
  refine ⟨fun c h => ?_, fun c h => ?_, fun es => ?_, fun es0 es hes => ?_⟩
  · simp [attemptReconnect, maxReconnectAttempts, h]
  · simp [attemptReconnect, maxReconnectAttempts, h]
  · exact run_reconnectAttempts_le es _ (Nat.zero_le _)
  · have h1 := run_reconnects es (run (NetworkClient.new H) es0).1 hes
    have h2 := run_reconnectAttempts_le es (run (NetworkClient.new H) es0).1
      (run_reconnectAttempts_le es0 _ (Nat.zero_le _))
    unfold maxReconnectAttempts at h2
    omega

/-- C7, at concrete inputs: the third attempt is set 8 seconds ahead, and
seven closes in a row after an open set five timers. -/
theorem reconnect_backoff_witness :
    attemptReconnect ({ exConnected with reconnectAttempts := 2 } : NetworkClient Unit) =
      ({ exConnected with reconnectAttempts := 3 }, [8000]) ∧
    reconnectsScheduled
      (run (run (NetworkClient.new Unit) [Event.connect, Event.onopen]).1
        (List.replicate 7 Event.onclose)).2 ≤ 5 :=
  ⟨(reconnect_backoff Unit).1 { exConnected with reconnectAttempts := 2 } (by decide),
   (reconnect_backoff Unit).2.2.2 [Event.connect, Event.onopen] (List.replicate 7 Event.onclose)
     (by decide)⟩

end Client

/-! ## Properties of the state reconciliation -/

section Maps

variable {V : Type}

theorem mapGet_cons (k' : String) (v : V) (m : JsMap V) (k : String) :
    mapGet ((k', v) :: m) k = if k' = k then some v else mapGet m k := by
  unfold mapGet
  by_cases h : k' = k <;> simp [List.find?_cons, h]

theorem mapHas_cons (k' : String) (v : V) (m : JsMap V) (k : String) :
    mapHas ((k', v) :: m) k = (decide (k' = k) || mapHas m k) := by
  unfold mapHas
  by_cases h : k' = k <;> simp [h]

theorem mapDelete_cons (k' : String) (v : V) (m : JsMap V) (k : String) :
    mapDelete ((k', v) :: m) k = if k' = k then mapDelete m k else (k', v) :: mapDelete m k := by
  unfold mapDelete
  by_cases h : k' = k <;> simp [List.filter_cons, h]

theorem mapHas_eq_isSome (m : JsMap V) (k : String) : mapHas m k = (mapGet m k).isSome := by
  induction m with
  | nil => rfl
  | cons kv m ih =>
    obtain ⟨k', v⟩ := kv
    rw [mapHas_cons, mapGet_cons, ih]
    by_cases h : k' = k <;> simp [h]

theorem mapHas_iff_mem_keys (m : JsMap V) (k : String) : mapHas m k = true ↔ k ∈ mapKeys m := by
  unfold mapHas mapKeys
  simp only [List.any_eq_true, beq_iff_eq, List.mem_map]

theorem mapHas_mapDelete (m : JsMap V) (k id : String) :
    mapHas (mapDelete m k) id = (decide (id ≠ k) && mapHas m id) := by
  induction m with
  | nil => simp [mapDelete, mapHas]
  | cons kv m ih =>
    obtain ⟨k', v⟩ := kv
    rw [mapDelete_cons, mapHas_cons]
    by_cases h : k' = k
    · rw [if_pos h, ih]
      by_cases h2 : id = k
      · simp [h2]
      · have h3 : ¬ k' = id := fun h' => h2 (h' ▸ h)
        simp [h2, h3]
    · rw [if_neg h, mapHas_cons, ih]
      by_cases h2 : k' = id
      · have h3 : ¬ id = k := fun h' => h (h2.trans h')
        simp [h2, h3]
      · simp [h2]

theorem mapKeys_mapModify (m : JsMap V) (k : String) (f : V → V) :
    mapKeys (mapModify m k f) = mapKeys m := by
  induction m with
  | nil => rfl
  | cons kv m ih =>
    obtain ⟨k', v⟩ := kv
    unfold mapModify
    split
    · rfl
    · simp only [mapKeys, List.map_cons] at ih ⊢
      rw [ih]

theorem mapGet_mapModify (m : JsMap V) (k id : String) (f : V → V) :
    mapGet (mapModify m k f) id = if id = k then (mapGet m k).map f else mapGet m id := by
  induction m with
  | nil => simp [mapModify, mapGet]
  | cons kv m ih =>
    obtain ⟨k', v⟩ := kv
    unfold mapModify
    by_cases h : k' = k
    · simp only [beq_iff_eq, h, if_true, mapGet_cons]
      by_cases h2 : k = id
      · simp [h2]
      · have h3 : ¬ id = k := fun h' => h2 h'.symm
        simp [h2, h3]
    · simp only [beq_iff_eq, h, if_false, mapGet_cons, ih]
      by_cases h2 : k' = id
      · have h3 : ¬ id = k := fun h' => h (h2.trans h')
        simp [h2, h3]
      · simp [h2]

theorem mapHas_mapModify (m : JsMap V) (k id : String) (f : V → V) :
    mapHas (mapModify m k f) id = mapHas m id := by
  have h1 := mapHas_iff_mem_keys (mapModify m k f) id
  have h2 := mapHas_iff_mem_keys m id
  rw [mapKeys_mapModify] at h1
  rw [Bool.eq_iff_iff, h1, h2]

/-- Replacing the value of every entry under `k`: what `get` then finds. -/
theorem mapGet_replace (m : JsMap V) (k id : String) (v : V) :
    mapGet (m.map (fun kv => if kv.1 == k then (k, v) else kv)) id =
      if id = k then (mapGet m k).map (fun _ => v) else mapGet m id := by
  induction m with
  | nil => simp [mapGet]
  | cons kv m ih =>
    obtain ⟨k', v'⟩ := kv
    by_cases h : k' = k
    · simp only [List.map_cons, beq_iff_eq, h, if_true, mapGet_cons]
      by_cases h2 : k = id
      · simp [h2]
      · have h3 : ¬ id = k := fun h' => h2 h'.symm
        simpa [h2, h3] using ih
    · simp only [List.map_cons, beq_iff_eq, h, if_false, mapGet_cons]
      by_cases h2 : k' = id
      · have h3 : ¬ id = k := fun h' => h (h2.trans h')
        simp [h2, h3]
      · simpa [h2] using ih

/-- Adding an entry at the end: what `get` then finds. -/
theorem mapGet_append_one (m : JsMap V) (k id : String) (v : V) :
    mapGet (m ++ [(k, v)]) id =
      match mapGet m id with
      | some x => some x
      | none => if id = k then some v else none := by
  induction m with
  | nil =>
    simp only [List.nil_append, mapGet_cons]
    by_cases h : k = id
    · simp [h, mapGet]
    · have h3 : ¬ id = k := fun h' => h h'.symm
      simp [h, h3, mapGet]
  | cons kv m ih =>
    obtain ⟨k', v'⟩ := kv
    simp only [List.cons_append, mapGet_cons]
    by_cases h : k' = id
    · simp [h]
    · simpa [h] using ih

theorem mapGet_mapSet (m : JsMap V) (k id : String) (v : V) :
    mapGet (mapSet m k v) id = if id = k then some v else mapGet m id := by
  unfold mapSet
  have hs := mapHas_eq_isSome m k
  cases hh : mapHas m k with
  | true =>
    rw [hh] at hs
    simp only [if_true]
    rw [mapGet_replace]
    by_cases h2 : id = k
    · obtain ⟨x, hx⟩ := Option.isSome_iff_exists.mp hs.symm
      simp [h2, hx]
    · simp [h2]
  | false =>
    rw [hh] at hs
    simp only [Bool.false_eq_true, if_false]
    rw [mapGet_append_one]
    by_cases h2 : id = k
    · subst h2
      have hn : mapGet m id = none := by
        cases hg : mapGet m id with
        | none => rfl
        | some x => rw [hg] at hs; simp at hs
      simp [hn]
    · simp only [h2, if_false]
      cases mapGet m id <;> rfl

theorem mapHas_mapSet (m : JsMap V) (k id : String) (v : V) :
    mapHas (mapSet m k v) id = (decide (id = k) || mapHas m id) := by
  rw [mapHas_eq_isSome, mapHas_eq_isSome, mapGet_mapSet]
  by_cases h : id = k <;> simp [h]

end Maps

/-! ### Folding `set` over a listing -/

section Folds

variable {α V : Type}

theorem lastWhere_cons (p : α → Prop) [DecidablePred p] (a : α) (l : List α) :
    lastWhere p (a :: l) =
      match lastWhere p l with
      | some b => some b
      | none => if p a then some a else none := by
  unfold lastWhere
  by_cases h : p a
  · simp only [List.filter_cons, h, decide_True, if_true, List.getLast?_cons]
    cases List.getLast? (List.filter (fun a => decide (p a)) l) <;> rfl
  · simp only [List.filter_cons, h, decide_False, Bool.false_eq_true, if_false]
    cases List.getLast? (List.filter (fun a => decide (p a)) l) <;> rfl

theorem lastWhere_mem (p : α → Prop) [DecidablePred p] (l : List α) (a : α)
    (h : lastWhere p l = some a) : a ∈ l ∧ p a := by
  unfold lastWhere at h
  have := List.mem_of_getLast?_eq_some h
  rw [List.mem_filter] at this
  exact ⟨this.1, of_decide_eq_true this.2⟩

theorem lastWhere_eq_none (p : α → Prop) [DecidablePred p] (l : List α) :
    lastWhere p l = none ↔ ∀ a ∈ l, ¬ p a := by
  unfold lastWhere
  rw [List.getLast?_eq_none_iff, List.filter_eq_nil_iff]
  simp

/-- What `get` finds after a loop of guarded `set` calls over a listing: the
value of the last listed element with that key that passes the guard, and
otherwise what was there before. -/
theorem mapGet_foldl_set (p : α → Prop) [DecidablePred p] (key : α → String) (val : α → V)
    (l : List α) (m : JsMap V) (id : String) :
    mapGet (l.foldl (fun acc a => if p a then mapSet acc (key a) (val a) else acc) m) id =
      match lastWhere (fun a => p a ∧ key a = id) l with
      | some a => some (val a)
      | none => mapGet m id := by
  induction l generalizing m with
  | nil => rfl
  | cons a l ih =>
    rw [List.foldl_cons, ih, lastWhere_cons]
    cases lastWhere (fun a => p a ∧ key a = id) l with
    | some b => rfl
    | none =>
      by_cases hp : p a
      · by_cases hk : key a = id
        · simp [hp, hk, mapGet_mapSet]
        · have hk2 : ¬ id = key a := fun h => hk h.symm
          simp [hp, hk, hk2, mapGet_mapSet]
      · simp [hp]

theorem mapKeys_mapSet (m : JsMap V) (k : String) (v : V) :
    mapKeys (mapSet m k v) = if mapHas m k then mapKeys m else mapKeys m ++ [k] := by
  unfold mapSet
  cases hh : mapHas m k with
  | true =>
    simp only [if_true]
    unfold mapKeys
    rw [List.map_map]
    apply List.map_congr_left
    intro kv _
    by_cases h : kv.1 = k <;> simp [h]
  | false => simp [mapKeys]

theorem mapKeys_mapSet_nodup (m : JsMap V) (k : String) (v : V) (h : (mapKeys m).Nodup) :
    (mapKeys (mapSet m k v)).Nodup := by
  rw [mapKeys_mapSet]
  cases hh : mapHas m k with
  | true => simpa using h
  | false =>
    have hk : k ∉ mapKeys m := by
      rw [← mapHas_iff_mem_keys, hh]; simp
    simp only [Bool.false_eq_true, if_false]
    rw [List.nodup_append]
    refine ⟨h, List.nodup_singleton k, ?_⟩
    intro x hx hx2
    rw [List.mem_singleton] at hx2
    exact hk (hx2 ▸ hx)

theorem mapKeys_foldl_set_nodup (p : α → Prop) [DecidablePred p] (key : α → String)
    (val : α → V) (l : List α) (m : JsMap V) (h : (mapKeys m).Nodup) :
    (mapKeys (l.foldl (fun acc a => if p a then mapSet acc (key a) (val a) else acc) m)).Nodup := by
  induction l generalizing m with
  | nil => exact h
  | cons a l ih =>
    rw [List.foldl_cons]
    apply ih
    split
    · exact mapKeys_mapSet_nodup m _ _ h
    · exact h

theorem lastWhere_congr (p q : α → Prop) [DecidablePred p] [DecidablePred q] (l : List α)
    (h : ∀ a, p a ↔ q a) : lastWhere p l = lastWhere q l := by
  unfold lastWhere
  congr 1
  apply List.filter_congr
  intro a _
  simp [h a]

/-- What `get` finds after a loop of `set` calls over a listing. -/
theorem mapGet_foldl_set_all (key : α → String) (val : α → V) (l : List α) (m : JsMap V)
    (id : String) :
    mapGet (l.foldl (fun acc a => mapSet acc (key a) (val a)) m) id =
      match lastWhere (fun a => key a = id) l with
      | some a => some (val a)
      | none => mapGet m id := by
  have h := mapGet_foldl_set (fun _ => True) key val l m id
  simp only [if_true] at h
  rw [h, lastWhere_congr (fun a => True ∧ key a = id) (fun a => key a = id) l (by simp)]

theorem mapKeys_foldl_set_all_nodup (key : α → String) (val : α → V) (l : List α)
    (m : JsMap V) (h : (mapKeys m).Nodup) :
    (mapKeys (l.foldl (fun acc a => mapSet acc (key a) (val a)) m)).Nodup := by
  have h' := mapKeys_foldl_set_nodup (fun _ => True) key val l m h
  simpa only [if_true] using h'

end Folds

/-! ### The snapshot -/

/-- The local player after the first loop of the snapshot handler: built from
the last listed player with the client's id, or the one there was. -/
theorem snapshotLocal_eq (clientId : String) (players : List EntityData) (cur : Option Player) :
    snapshotLocal clientId players cur =
      match lastWhere (fun pd => pd.id = clientId) players with
      | some pd => some (makeLocal pd)
      | none => cur := by
  unfold snapshotLocal
  induction players generalizing cur with
  | nil => rfl
  | cons a l ih =>
    rw [List.foldl_cons, ih, lastWhere_cons]
    cases lastWhere (fun pd => pd.id = clientId) l with
    | some b => rfl
    | none => by_cases h : a.id = clientId <;> simp [h]

/-- What the remote-player map holds under `id` after the snapshot handler. -/
theorem worldSnapshot_remote_get (g : Game) (s : Snapshot) (id : String) :
    mapGet (worldSnapshot g s).remotePlayers id =
      match lastWhere (fun pd => pd.id ≠ s.clientId ∧ pd.id = id) s.players with
      | some pd => some (makeRemote pd.id pd)
      | none => mapGet g.remotePlayers id := by
  have h := mapGet_foldl_set (fun pd : EntityData => pd.id ≠ s.clientId) (fun pd => pd.id)
    (fun pd => makeRemote pd.id pd) s.players g.remotePlayers id
  show mapGet (snapshotRemotes s.clientId s.players g.remotePlayers) id = _
  unfold snapshotRemotes
  rw [h]
  cases lastWhere (fun pd : EntityData => pd.id ≠ s.clientId ∧ pd.id = id) s.players <;> rfl

/-- C2 as amended: the snapshot handler adds to the maps and does not empty
them. Afterwards the local player is the one built from the last listed
player whose id is `snapshot.clientId`, or the prior local player if none is
listed; under every id, each of the remote-player, essence and npc maps holds
the entity built from the last listing of that id (for remote players: among
the listed players other than the client), or what it held before if the id
is not listed; and a map whose keys were distinct has distinct keys, so each
listed id has exactly one entry. -/
theorem snapshot_merges (g : Game) (s : Snapshot) :
    ((worldSnapshot g s).localPlayer =
      match lastWhere (fun pd => pd.id = s.clientId) s.players with
      | some pd => some (makeLocal pd)
      | none => g.localPlayer) ∧
    (∀ id, mapGet (worldSnapshot g s).remotePlayers id =
      match lastWhere (fun pd => pd.id ≠ s.clientId ∧ pd.id = id) s.players with
      | some pd => some (makeRemote pd.id pd)
      | none => mapGet g.remotePlayers id) ∧
    (∀ id, mapGet (worldSnapshot g s).essences id =
      match lastWhere (fun e => e.id = id) s.essences with
      | some e => some (Essence.new e.id e.position.x e.position.y e.type e.rarity e.level)
      | none => mapGet g.essences id) ∧
    (∀ id, mapGet (worldSnapshot g s).npcs id =
      match lastWhere (fun n => n.id = id) s.npcs with
      | some n => some (NPC.new n.id n.position.x n.position.y)
      | none => mapGet g.npcs id) ∧
    ((mapKeys g.remotePlayers).Nodup → (mapKeys (worldSnapshot g s).remotePlayers).Nodup) ∧
    ((mapKeys g.essences).Nodup → (mapKeys (worldSnapshot g s).essences).Nodup) ∧
    ((mapKeys g.npcs).Nodup → (mapKeys (worldSnapshot g s).npcs).Nodup) := by
  refine ⟨snapshotLocal_eq _ _ _, fun id => ?_, fun id => ?_, fun id => ?_,
    fun h => ?_, fun h => ?_, fun h => ?_⟩
  · exact worldSnapshot_remote_get g s id
  · have h := mapGet_foldl_set_all (fun e : EssenceData => e.id)
      (fun e => Essence.new e.id e.position.x e.position.y e.type e.rarity e.level)
      s.essences g.essences id
    show mapGet (snapshotEssences s.essences g.essences) id = _
    unfold snapshotEssences
    rw [h]
    cases lastWhere (fun e : EssenceData => e.id = id) s.essences <;> rfl
  · have h := mapGet_foldl_set_all (fun n : NpcData => n.id)
      (fun n => NPC.new n.id n.position.x n.position.y) s.npcs g.npcs id
    show mapGet (snapshotNpcs s.npcs g.npcs) id = _
    unfold snapshotNpcs
    rw [h]
    cases lastWhere (fun n : NpcData => n.id = id) s.npcs <;> rfl
  · exact mapKeys_foldl_set_nodup (fun pd : EntityData => pd.id ≠ s.clientId) (fun pd => pd.id)
      (fun pd => makeRemote pd.id pd) s.players g.remotePlayers h
  · exact mapKeys_foldl_set_all_nodup (fun e : EssenceData => e.id)
      (fun e => Essence.new e.id e.position.x e.position.y e.type e.rarity e.level)
      s.essences g.essences h
  · exact mapKeys_foldl_set_all_nodup (fun n : NpcData => n.id)
      (fun n => NPC.new n.id n.position.x n.position.y) s.npcs g.npcs h

/-- C2 as amended, at the scenario of section 8 of the spec: from the empty
game the snapshot yields local player `A`, one remote player `B` and one
pickup `e1`, each key once. -/
theorem snapshot_merges_witness :
    exGame.localPlayer = some (makeLocal (exPlayerData "A")) ∧
    mapKeys exGame.remotePlayers = ["B"] ∧
    mapKeys exGame.essences = ["e1"] ∧
    (mapKeys (worldSnapshot Game.new exSnapshot).remotePlayers).Nodup ∧
    (mapKeys (worldSnapshot Game.new exSnapshot).essences).Nodup ∧
    (mapKeys (worldSnapshot Game.new exSnapshot).npcs).Nodup :=
  ⟨by decide, by decide, by decide,
   (snapshot_merges Game.new exSnapshot).2.2.2.2.1 List.nodup_nil,
   (snapshot_merges Game.new exSnapshot).2.2.2.2.2.1 List.nodup_nil,
   (snapshot_merges Game.new exSnapshot).2.2.2.2.2.2 List.nodup_nil⟩

/-- C2 fails as stated: a second snapshot that lists the player `A` alone, and
no pickup, leaves the remote player `B` and the pickup `e1` of the first
snapshot in their maps. -/
theorem snapshot_keeps_unlisted :
    exSnapshotAlone.players.map (fun pd => pd.id) = ["A"] ∧
    exSnapshotAlone.essences = [] ∧
    mapKeys exGame.remotePlayers = ["B"] ∧
    mapKeys exGame.essences = ["e1"] ∧
    mapKeys (worldSnapshot exGame exSnapshotAlone).remotePlayers = ["B"] ∧
    mapKeys (worldSnapshot exGame exSnapshotAlone).essences = ["e1"] := by
  decide

/-! ### Incremental updates -/

/-- An `entityMoved` update that names the local player's id changes
nothing. -/
theorem applyEntityMoved_local (g : Game) (p : Player) (hp : g.localPlayer = some p)
    (entity : EntityData) (hid : entity.id = p.id) : applyEntityMoved g entity = g := by
  have h : getEntity g entity.id = some EntityRef.localPlayer := by
    simp [getEntity, hp, hid]
  simp [applyEntityMoved, h]

/-- C1: if every update of a `stateUpdate` payload is an `entityMoved` whose
`entity.id` is the local player's id, the handler returns the game state it
was given: the local player's position, velocity and rotation are as before
and no other entity is touched. -/
theorem local_moves_ignored (g : Game) (p : Player) (hp : g.localPlayer = some p)
    (updates : List EntityUpdate)
    (hu : ∀ u ∈ updates, ∃ entity, u = EntityUpdate.entityMoved entity ∧ entity.id = p.id) :
    stateUpdate g updates = g := by
  unfold stateUpdate
  induction updates with
  | nil => rfl
  | cons u us ih =>
    obtain ⟨entity, rfl, hid⟩ := hu u (List.mem_cons_self _ _)
    rw [List.foldl_cons]
    have h1 : applyUpdate g (EntityUpdate.entityMoved entity) = g :=
      applyEntityMoved_local g p hp entity hid
    rw [h1]
    exact ih (fun u hu' => hu u (List.mem_cons_of_mem _ hu'))

/-- C1, at the game of the scenario (local player `A`): two moves aimed at `A`
leave the game as it was. -/
theorem local_moves_ignored_witness :
    exGame.localPlayer.map (fun p => p.id) = some "A" ∧
    stateUpdate exGame
      [EntityUpdate.entityMoved (exMove "A"), EntityUpdate.entityMoved (exMove "A")] = exGame :=
  ⟨by decide,
   local_moves_ignored exGame
     { Player.new "A" "A" 0 0 with essenceCount := 0, health := 100 } (by decide)
     [EntityUpdate.entityMoved (exMove "A"), EntityUpdate.entityMoved (exMove "A")]
     (by
       intro u hu
       simp only [List.mem_cons, List.mem_singleton, List.not_mem_nil, or_false, or_self] at hu
       exact ⟨exMove "A", hu, rfl⟩)⟩

/-- The same move aimed at the remote player `B` is applied: the path does
mutate entities other than the local player. -/
theorem remote_move_applies :
    (mapGet (stateUpdate exGame [EntityUpdate.entityMoved (exMove "B")]).remotePlayers "B").map
      (fun r => (r.position, r.velocity, r.rotation)) = some (⟨7, 9⟩, ⟨1, 1⟩, 3) := by
  decide

/-- The `essenceCollected` branch when `playerId` is a remote player. -/
theorem applyEssenceCollected_remote (g : Game) (essenceId playerId : String) (n : Int)
    (r : RemotePlayer) (h : mapGet g.remotePlayers playerId = some r) :
    applyEssenceCollected g essenceId playerId n =
      { g with
        essences := mapDelete g.essences essenceId
        remotePlayers := mapModify g.remotePlayers playerId
          (fun p => { p with essenceCount := n }) } := by
  simp [applyEssenceCollected, h]

/-- The `essenceCollected` branch when `playerId` is not a remote player. -/
theorem applyEssenceCollected_local (g : Game) (essenceId playerId : String) (n : Int)
    (h : mapGet g.remotePlayers playerId = none) :
    applyEssenceCollected g essenceId playerId n =
      { g with
        essences := mapDelete g.essences essenceId
        localPlayer := g.localPlayer.map (fun p => { p with essenceCount := n }) } := by
  cases hl : g.localPlayer <;> simp [applyEssenceCollected, h, hl]

/-- C3: after an `essenceCollected` event the pickup id is not a key of the
essence map. If `playerId` is a key of the remote-player map, the remote
player under that key is as before but for its essence count, which is the
event's, and the local player is unchanged. If it is not, the remote-player
map is unchanged and the local player, when there is one, is as before but for
its essence count, which is the event's. -/
theorem essence_collected (g : Game) (essenceId playerId : String) (essenceCount : Int) :
    mapHas (stateUpdate g
      [EntityUpdate.essenceCollected essenceId playerId essenceCount]).essences essenceId = false ∧
    (mapHas g.remotePlayers playerId = true →
      (∃ r, mapGet g.remotePlayers playerId = some r ∧
        mapGet (stateUpdate g
          [EntityUpdate.essenceCollected essenceId playerId essenceCount]).remotePlayers playerId
          = some { r with essenceCount := essenceCount }) ∧
      (stateUpdate g
        [EntityUpdate.essenceCollected essenceId playerId essenceCount]).localPlayer
        = g.localPlayer) ∧
    (mapHas g.remotePlayers playerId = false →
      (stateUpdate g
        [EntityUpdate.essenceCollected essenceId playerId essenceCount]).remotePlayers
        = g.remotePlayers ∧
      (stateUpdate g
        [EntityUpdate.essenceCollected essenceId playerId essenceCount]).localPlayer
        = g.localPlayer.map (fun p => { p with essenceCount := essenceCount })) := by
  have hrun : stateUpdate g [EntityUpdate.essenceCollected essenceId playerId essenceCount] =
      applyEssenceCollected g essenceId playerId essenceCount := rfl
  rw [hrun]
  have hs := mapHas_eq_isSome g.remotePlayers playerId
  have hdel : mapHas (mapDelete g.essences essenceId) essenceId = false := by
    rw [mapHas_mapDelete]; simp
  cases hget : mapGet g.remotePlayers playerId with
  | some r =>
    rw [applyEssenceCollected_remote g essenceId playerId essenceCount r hget]
    refine ⟨hdel, fun _ => ⟨⟨r, rfl, ?_⟩, rfl⟩, fun hno => ?_⟩
    · show mapGet (mapModify g.remotePlayers playerId _) playerId = _
      rw [mapGet_mapModify, if_pos rfl, hget]
      rfl
    · rw [hget] at hs; rw [hs] at hno; simp at hno
  | none =>
    rw [applyEssenceCollected_local g essenceId playerId essenceCount hget]
    refine ⟨hdel, fun hyes => ?_, fun _ => ⟨rfl, rfl⟩⟩
    rw [hget] at hs; rw [hs] at hyes; simp at hyes

/-- C3, at the scenario of section 8 of the spec: `B` collects `e1` with
count 3; `e1` is gone, `B` has count 3 and the local player is unchanged. -/
theorem essence_collected_witness :
    mapHas (stateUpdate exGame [EntityUpdate.essenceCollected "e1" "B" 3]).essences "e1" = false ∧
    (mapGet (stateUpdate exGame
      [EntityUpdate.essenceCollected "e1" "B" 3]).remotePlayers "B").map
      (fun r => r.essenceCount) = some 3 ∧
    (stateUpdate exGame [EntityUpdate.essenceCollected "e1" "B" 3]).localPlayer
      = exGame.localPlayer := by
  have h := essence_collected exGame "e1" "B" 3
  obtain ⟨⟨r, _, hr⟩, hl⟩ := h.2.1 (by decide)
  exact ⟨h.1, by rw [hr]; rfl, hl⟩

/-! ### The local player and the remote-player map -/

theorem worldSnapshot_clientApart (X : String) (g : Game) (s : Snapshot)
    (hs : s.clientId = X) (h : clientApart X g) : clientApart X (worldSnapshot g s) := by
  have hloc : (worldSnapshot g s).localPlayer =
      match lastWhere (fun pd => pd.id = s.clientId) s.players with
      | some pd => some (makeLocal pd)
      | none => g.localPlayer := snapshotLocal_eq _ _ _
  refine ⟨?_, fun p hp => ?_⟩
  · rw [mapHas_eq_isSome, worldSnapshot_remote_get g s X]
    have hnone : lastWhere (fun pd : EntityData => pd.id ≠ s.clientId ∧ pd.id = X) s.players
        = none := by
      rw [lastWhere_eq_none]
      intro a _ ha
      exact ha.1 (ha.2.trans hs.symm)
    rw [hnone]
    have := h.1
    rw [mapHas_eq_isSome] at this
    exact this
  · rw [hloc] at hp
    cases hl : lastWhere (fun pd : EntityData => pd.id = s.clientId) s.players with
    | some pd =>
      rw [hl] at hp
      have hpd := (lastWhere_mem _ _ _ hl).2
      simp only [Option.some.injEq] at hp
      rw [← hp]
      exact hpd.trans hs
    | none =>
      rw [hl] at hp
      exact h.2 p hp

theorem applyUpdate_clientApart (X : String) (g : Game) (u : EntityUpdate)
    (h : clientApart X g) : clientApart X (applyUpdate g u) := by
  cases u with
  | other => exact h
  | entityMoved entity =>
    show clientApart X (applyEntityMoved g entity)
    unfold applyEntityMoved
    split
    · exact h
    · exact h
    · exact ⟨by rw [mapHas_mapModify]; exact h.1, h.2⟩
    · exact h
    · exact h
  | essenceCollected essenceId playerId n =>
    show clientApart X (applyEssenceCollected g essenceId playerId n)
    cases hget : mapGet g.remotePlayers playerId with
    | some r =>
      rw [applyEssenceCollected_remote g essenceId playerId n r hget]
      exact ⟨by rw [mapHas_mapModify]; exact h.1, h.2⟩
    | none =>
      rw [applyEssenceCollected_local g essenceId playerId n hget]
      refine ⟨h.1, fun p hp => ?_⟩
      cases hl : g.localPlayer with
      | none => rw [hl] at hp; simp at hp
      | some q =>
        rw [hl] at hp
        simp only [Option.map_some', Option.some.injEq] at hp
        rw [← hp]
        exact h.2 q hl

theorem stateUpdate_clientApart (X : String) (updates : List EntityUpdate) (g : Game)
    (h : clientApart X g) : clientApart X (stateUpdate g updates) := by
  unfold stateUpdate
  induction updates generalizing g with
  | nil => exact h
  | cons u us ih => exact ih _ (applyUpdate_clientApart X g u h)

theorem playerJoined_clientApart (X : String) (g : Game) (data : JoinData)
    (hd : data.playerId ≠ X) (h : clientApart X g) : clientApart X (playerJoined g data) := by
  refine ⟨?_, h.2⟩
  show mapHas (mapSet g.remotePlayers data.playerId _) X = false
  rw [mapHas_mapSet, h.1]
  have : ¬ X = data.playerId := fun h' => hd h'.symm
  simp [this]

theorem playerLeft_clientApart (X : String) (g : Game) (playerId : String)
    (h : clientApart X g) : clientApart X (playerLeft g playerId) := by
  refine ⟨?_, h.2⟩
  show mapHas (mapDelete g.remotePlayers playerId) X = false
  rw [mapHas_mapDelete, h.1]
  simp

theorem gameRun_clientApart (X : String) (events : List GameEvent) (g : Game)
    (hsnap : ∀ s, GameEvent.worldSnapshot s ∈ events → s.clientId = X)
    (hjoin : ∀ d, GameEvent.playerJoined d ∈ events → d.playerId ≠ X)
    (h : clientApart X g) : clientApart X (gameRun g events) := by
  unfold gameRun
  induction events generalizing g with
  | nil => exact h
  | cons e es ih =>
    rw [List.foldl_cons]
    apply ih
    · exact fun s hs => hsnap s (List.mem_cons_of_mem _ hs)
    · exact fun d hd => hjoin d (List.mem_cons_of_mem _ hd)
    · cases e with
      | worldSnapshot s =>
        exact worldSnapshot_clientApart X g s (hsnap s (List.mem_cons_self _ _)) h
      | stateUpdate updates => exact stateUpdate_clientApart X updates g h
      | playerJoined d =>
        exact playerJoined_clientApart X g d (hjoin d (List.mem_cons_self _ _)) h
      | playerLeft playerId => exact playerLeft_clientApart X g playerId h

/-- C10 as amended: in every state reached from the initial game state by
`worldSnapshot`, `stateUpdate`, `playerJoined` and `playerLeft` invocations
in which every snapshot declares the client id `X` and no `playerJoined`
carries `X`, the local player, once it exists, has id `X` and its id is not a
key of the remote-player map. -/
theorem local_not_remote (X : String) (events : List GameEvent)
    (hsnap : ∀ s, GameEvent.worldSnapshot s ∈ events → s.clientId = X)
    (hjoin : ∀ d, GameEvent.playerJoined d ∈ events → d.playerId ≠ X) :
    localNotRemote (gameRun Game.new events) ∧
    ∀ p, (gameRun Game.new events).localPlayer = some p → p.id = X := by
  have h := gameRun_clientApart X events Game.new hsnap hjoin ⟨rfl, fun p hp => by cases hp⟩
  refine ⟨fun p hp => ?_, h.2⟩
  rw [h.2 p hp]
  exact h.1

/-- C10 as amended, at a session of the client `A`: the invariant holds at the
end, where the local player is `A` and the remote players are `C`. -/
theorem local_not_remote_witness :
    localNotRemote (gameRun Game.new exSession) ∧
    (gameRun Game.new exSession).localPlayer.map (fun p => p.id) = some "A" ∧
    mapKeys (gameRun Game.new exSession).remotePlayers = ["C"] :=
  ⟨(local_not_remote "A" exSession
      (by
        intro s hs
        simp only [exSession, List.mem_cons, List.mem_singleton, List.not_mem_nil, or_false,
          GameEvent.worldSnapshot.injEq, reduceCtorEq, false_or, or_false] at hs
        rw [hs]; rfl)
      (by
        intro d hd
        simp only [exSession, List.mem_cons, List.mem_singleton, List.not_mem_nil, or_false,
          GameEvent.playerJoined.injEq, reduceCtorEq, false_or, or_false] at hd
        rw [hd]; decide)).1,
   by decide, by decide⟩

/-- C10 fails as stated: after the snapshot of the scenario (local player
`A`) a `playerJoined` that carries the id `A` puts `A` in the remote-player
map; and a second snapshot that declares the client to be `B` makes `B` the
local player while `B` is still a key of the remote-player map. -/
theorem local_id_enters_remote_map :
    ¬ localNotRemote
        (gameRun Game.new [GameEvent.worldSnapshot exSnapshot, GameEvent.playerJoined (exJoin "A")]) ∧
    ¬ localNotRemote
        (gameRun Game.new
          [GameEvent.worldSnapshot exSnapshot, GameEvent.worldSnapshot exSnapshotAsB]) := by
  constructor
  · intro h
    have := h (makeLocal (exPlayerData "A")) (by decide)
    revert this
    decide
  · intro h
    have := h (makeLocal (exPlayerData "B")) (by decide)
    revert this
    decide

end EssenceIo
